import Mathlib

/-!
Verification of the settings-loading layer of a small web application
(`src/web/src/app/settings.rs`).

The repository's own code is `Settings::new` (building a merged configuration
from defaults, a direct `PORT` mapping, files and `APP_`-prefixed environment
variables) and `impl Into<Config> for Settings` (projecting the typed record
into the web framework's configuration).  The configuration-merging library,
the web framework and the serialization library are external crates whose
sources are not part of the repository; their behaviour is modelled from the
specification where noted by a doc comment starting `Modelled from the spec:`.
-/

set_option autoImplicit false

namespace SettingsSpec

/-- The process environment, as an association list from variable name to
value.  A name absent from the list is an unset variable. -/
abbrev EnvList := List (String × String)

/-- Decidable equality for `Except`, used to evaluate the model on concrete
inputs. -/
instance {ε α : Type} [DecidableEq ε] [DecidableEq α] : DecidableEq (Except ε α) := fun a b =>
  match a, b with
  | Except.error e1, Except.error e2 =>
    if h : e1 = e2 then isTrue (congrArg Except.error h)
    else isFalse fun hc => h (Except.error.inj hc)
  | Except.ok a1, Except.ok a2 =>
    if h : a1 = a2 then isTrue (congrArg Except.ok h)
    else isFalse fun hc => h (Except.ok.inj hc)
  | Except.error _, Except.ok _ => isFalse fun hc => Except.noConfusion hc
  | Except.ok _, Except.error _ => isFalse fun hc => Except.noConfusion hc

/-- Lower-casing a string character by character. -/
def toLowerStr (s : String) : String := ⟨s.data.map Char.toLower⟩

/-- Reading a variable from the process environment (`std::env::var`):
the first binding for the name, or `none` when unset. -/
def getVar (env : EnvList) (name : String) : Option String :=
  match env with
  | [] => none
  | p :: rest => if p.1 = name then some p.2 else getVar rest name

/-- A configuration value under construction: the sequence of key/value
assignments applied to it, in the order the merge steps applied them. -/
abbrev Conf := List (String × String)

/-- Left-biased choice on optional values, used to state which merge layer
provides a key. -/
def orElseO (a b : Option String) : Option String :=
  match a with
  | some v => some v
  | none => b

/-- The value a merged configuration holds for a key: the LAST assignment
for the key wins.

Modelled from the spec: the external configuration-merging library resolves
a key by taking the value from the latest source in merge order. -/
def confGet (c : Conf) (k : String) : Option String :=
  match c with
  | [] => none
  | p :: rest =>
    match confGet rest k with
    | some v => some v
    | none => if p.1 = k then some p.2 else none

/-- Strips the `APP_` environment prefix from a variable name and lower-cases
the remainder to form a settings key; `none` if the name does not begin with
the prefix.

Modelled from the spec: variables prefixed with `APP_` are stripped of the
prefix and lower-cased to form setting keys. -/
def stripApp (name : String) : Option String :=
  if name.data.take 4 = ['A', 'P', 'P', '_'] then
    some (toLowerStr ⟨name.data.drop 4⟩)
  else none

/-- The key/value pairs collected by `Environment::with_prefix(ENV_PREFIX)
.ignore_empty(true)`: every `APP_`-prefixed variable with a non-empty value,
keyed by its stripped, lower-cased name.

Modelled from the spec: prefixed variables merged with ignore-empty
semantics (a variable present but set to the empty string contributes
nothing). -/
def envPrefixed (env : EnvList) : List (String × String) :=
  env.filterMap fun p =>
    match stripApp p.1 with
    | some key => if p.2 = "" then none else some (key, p.2)
    | none => none

/-- The compile-time manifest directory baked into the binary by
`env!("CARGO_MANIFEST_DIR")`.

Modelled from the spec: a build-machine-dependent path; its concrete value is
irrelevant to every claim, so it is fixed here. -/
def CARGO_MANIFEST_DIR : String := "/workspace/web"

/-- Merge step 1 of `Settings::new`: the built-in defaults
(`set_default("static_dir", ...)`, `set_default("static_route", "/static")`). -/
def defaultsLayer : Conf :=
  [("static_dir", CARGO_MANIFEST_DIR ++ "/public"), ("static_route", "/static")]

/-- Merge step 2 of `Settings::new`: the `map_to_env!(conf, { "port" => "PORT" })`
expansion — in non-strict mode, `conf.set("port", v)` when `PORT` is set to
`v`, and nothing when `PORT` is unset. -/
def portEnvLayer (env : EnvList) : Conf :=
  match getVar env "PORT" with
  | some v => [("port", v)]
  | none => []

/-- The value `var("APP_ENV").unwrap_or(String::from(""))` used to select the
environment-specific file: the variable's value, or `""` when unset. -/
def appEnvOf (env : EnvList) : String :=
  match getVar env "APP_ENV" with
  | some v => v
  | none => ""

/-- The environment-specific file name selected by the `match` in
`Settings::new`: only `development`, `production` and `staging` select a file
`config-<env>`; every other value selects none. -/
def envFileName (appEnv : String) : Option String :=
  if appEnv = "development" then some "config-development"
  else if appEnv = "production" then some "config-production"
  else if appEnv = "staging" then some "config-staging"
  else none

/-- The file system visible to the loader: an association from file name to
the outcome of reading and parsing it.  A name absent from the list is an
absent file; `Except.error` is a present but malformed file; `Except.ok` is
the parsed key/value content. -/
abbrev FileSys := List (String × Except String (List (String × String)))

/-- Merging `File::with_name(name).required(false)`: an absent file
contributes nothing and is not an error; a malformed file fails the merge;
a parsed file contributes its key/value pairs.

Modelled from the spec: file sources are optional, their absence is not an
error, and malformed contents fail with a configuration-parse error. -/
def fileLayer (files : FileSys) (name : String) : Except String Conf :=
  match List.lookup name files with
  | none => Except.ok []
  | some (Except.error e) => Except.error e
  | some (Except.ok m) => Except.ok m

/-- Merge step 4 of `Settings::new`: the environment-specific file, merged
only when `APP_ENV` selects one. -/
def envFileLayer (env : EnvList) (files : FileSys) : Except String Conf :=
  match envFileName (appEnvOf env) with
  | some name => fileLayer files name
  | none => Except.ok []

/-- The fully merged configuration built by `Settings::new` before the typed
conversion: defaults, then the direct `PORT` mapping, then the base `config`
file, then the `config-<env>` file, then the `APP_`-prefixed environment
variables, later assignments overriding earlier ones for the same key.

Modelled from the spec: the external library merges sources in call order
with later sources overriding earlier ones for the same key. -/
def mergedConf (env : EnvList) (files : FileSys) : Except String Conf := do
  let base ← fileLayer files "config"
  let efl ← envFileLayer env files
  pure (defaultsLayer ++ portEnvLayer env ++ base ++ efl ++ envPrefixed env)

/-- Keys that should be filtered out of the extras map, because they are
defined as fields on `Settings` (`FILTER_EXTRA_KEYS` in the source). -/
def FILTER_EXTRA_KEYS : List String :=
  ["address", "port", "log", "workers", "secret_key"]

/-- The extras map installed by `Settings::new`: the `APP_`-prefixed
environment map, collected independently, with the `FILTER_EXTRA_KEYS`
removed. -/
def extrasMap (env : EnvList) : List (String × String) :=
  (envPrefixed env).filter fun p => ¬ p.1 ∈ FILTER_EXTRA_KEYS

/-- Parsing a merged string value as a `u16` (the typed conversion for the
`port` and `workers` fields): a decimal number below `2 ^ 16`, anything else
is a type-mismatch error.

Modelled from the spec: deserialization into the typed record fails with a
type-mismatch error, e.g. a non-numeric value supplied for `port`.
`natOfDigits` accumulates the decimal digits of a candidate number. -/
def natOfDigits (l : List Char) (acc : Nat) : Option Nat :=
  match l with
  | [] => some acc
  | c :: rest =>
    if c.isDigit then natOfDigits rest (acc * 10 + (c.toNat - 48)) else none

/-- Parsing a non-empty string of decimal digits as a natural number. -/
def parseNat (s : String) : Option Nat :=
  match s.data with
  | [] => none
  | l => natOfDigits l 0

def parseU16 (s : String) : Option Nat :=
  match parseNat s with
  | some n => if n < 65536 then some n else none
  | none => none

/-- Holds settings for the application (the `Settings` struct of the
source). -/
structure Settings where
  static_dir : String
  static_route : String
  address : Option String
  port : Option Nat
  log : Option String
  workers : Option Nat
  secret_key : Option String
  extras : List (String × String)
deriving Repr, DecidableEq

/-- Reading a required `String` field during the typed conversion
(`try_into`): missing is an error. -/
def getRequired (c : Conf) (k : String) : Except String String :=
  match confGet c k with
  | some v => Except.ok v
  | none => Except.error ("missing field " ++ k)

/-- Reading an optional `u16` field during the typed conversion: absent is
`none`, an unparsable value is a type-mismatch error. -/
def getOptU16 (c : Conf) (k : String) : Except String (Option Nat) :=
  match confGet c k with
  | none => Except.ok none
  | some v =>
    match parseU16 v with
    | some n => Except.ok (some n)
    | none => Except.error ("invalid type for " ++ k)

/-- The typed conversion `conf.try_into::<Settings>()`, with the extras map
already computed and installed.

Modelled from the spec: the merged value is deserialized into the typed
record; a wrong-typed value is a fatal error. -/
def tryIntoSettings (c : Conf) (extras : List (String × String)) :
    Except String Settings := do
  let sd ← getRequired c "static_dir"
  let sr ← getRequired c "static_route"
  let port ← getOptU16 c "port"
  let workers ← getOptU16 c "workers"
  pure { static_dir := sd, static_route := sr, address := confGet c "address",
         port := port, log := confGet c "log", workers := workers,
         secret_key := confGet c "secret_key", extras := extras }

/-- `Settings::new`: builds the merged configuration from the environment and
the file system, collects the filtered extras map, and converts to the typed
record. -/
def Settings.new (env : EnvList) (files : FileSys) : Except String Settings := do
  let conf ← mergedConf env files
  tryIntoSettings conf (extrasMap env)

/-- The keys of a `Settings` value's extras map. -/
def extrasKeys (r : Except String Settings) : List String :=
  match r with
  | Except.ok s => s.extras.map Prod.fst
  | Except.error _ => []


/-- The web framework's environment enumeration.

Modelled from the spec: the external framework's notion of active
environment; `production` is the fallback used by the projection. -/
inductive REnv where
  | development
  | staging
  | production
deriving Repr, DecidableEq

/-- The web framework's logging-level enumeration.

Modelled from the spec: at minimum critical, normal, debug and off. -/
inductive LoggingLevel where
  | critical
  | normal
  | debug
  | off
deriving Repr, DecidableEq

/-- `LoggingLevel::from_str`: the fixed set of enumerator names; anything
else fails.

Modelled from the spec: the log field is parsed into one of a fixed set of
logging-level enumerators. -/
def LoggingLevel.fromStr (s : String) : Option LoggingLevel :=
  if s = "critical" then some LoggingLevel.critical
  else if s = "normal" then some LoggingLevel.normal
  else if s = "debug" then some LoggingLevel.debug
  else if s = "off" then some LoggingLevel.off
  else none

/-- The framework's generic configuration value representation (`Value`).

Modelled from the spec: an opaque generic value; only its identity matters
to the claims. -/
inductive RValue where
  | strV (s : String)
deriving Repr, DecidableEq

/-- The web framework's configuration object, with the fields the projection
touches.

Modelled from the spec: address, port, logging level, worker count, secret
key and an open-ended extras table. -/
structure RConfig where
  environment : REnv
  address : String
  port : Nat
  log_level : LoggingLevel
  workers : Nat
  secret_key : Option String
  extras : List (String × RValue)
deriving Repr, DecidableEq

/-- `Config::new(env)`: the framework's configuration with its own built-in
defaults.

Modelled from the spec: the framework supplies its own defaults for every
field; their concrete values are the framework's business and every claim
about them only compares against this record unchanged. -/
def RConfig.new (env : REnv) : RConfig :=
  { environment := env, address := "localhost", port := 8000,
    log_level := LoggingLevel.normal, workers := 16,
    secret_key := none, extras := [] }

/-- The environment the projection constructs the configuration for:
`Environment::active().unwrap_or(Environment::Production)`. -/
def chosenEnv (active : Except String REnv) : REnv :=
  match active with
  | Except.ok e => e
  | Except.error _ => REnv.production

/-- `self.extras.iter().map(|(k, v)| Value::try_from(v) ...).collect()`:
converts every extras entry with the framework's fallible conversion,
stopping at the first failure (so on failure nothing is produced at all). -/
def collectExtras (tf : String → Except String RValue) :
    List (String × String) → Except String (List (String × RValue))
  | [] => Except.ok []
  | p :: rest =>
    match tf p.2 with
    | Except.ok w =>
      match collectExtras tf rest with
      | Except.ok r => Except.ok ((p.1, w) :: r)
      | Except.error e => Except.error e
    | Except.error e => Except.error e

/-- `if let Some(address) = self.address { conf.set_address(address); }` -/
def applyAddress (s : Settings) (c : RConfig) : RConfig :=
  match s.address with
  | some a => { c with address := a }
  | none => c

/-- `if let Some(port) = self.port { conf.set_port(port); }` -/
def applyPort (s : Settings) (c : RConfig) : RConfig :=
  match s.port with
  | some p => { c with port := p }
  | none => c

/-- `if let Some(log) = self.log { conf.set_log_level(
LoggingLevel::from_str(&log).unwrap_or(LoggingLevel::Normal)); }` -/
def applyLog (s : Settings) (c : RConfig) : RConfig :=
  match s.log with
  | some l => { c with log_level :=
      match LoggingLevel.fromStr l with
      | some lv => lv
      | none => LoggingLevel.normal }
  | none => c

/-- `if let Some(workers) = self.workers { conf.set_workers(workers); }` -/
def applyWorkers (s : Settings) (c : RConfig) : RConfig :=
  match s.workers with
  | some w => { c with workers := w }
  | none => c

/-- `if let Some(secret_key) = self.secret_key { conf.set_secret_key(k); }` -/
def applySecretKey (s : Settings) (c : RConfig) : RConfig :=
  match s.secret_key with
  | some k => { c with secret_key := some k }
  | none => c

/-- The scalar part of the projection: the framework defaults for the active
environment with each present optional field overwritten, in the order the
source applies them. -/
def applyScalars (active : Except String REnv) (s : Settings) : RConfig :=
  applySecretKey s (applyWorkers s (applyLog s (applyPort s
    (applyAddress s (RConfig.new (chosenEnv active))))))

/-- `impl Into<Config> for Settings`: starts from the framework's defaults
for the active environment (falling back to production), overwrites each
field whose optional setting is present, and applies the extras table as a
whole when every entry converts, emitting a diagnostic line otherwise.  The
second component is the sequence of diagnostics written to the error stream.

The framework's fallible value conversion `Value::try_from` is external and
is taken as the parameter `tf` (modelled from the spec: the conversion of a
single entry may fail).  The function is total: it always returns a
configuration. -/
def Settings.intoConfig (active : Except String REnv)
    (tf : String → Except String RValue) (s : Settings) :
    RConfig × List String :=
  match collectExtras tf s.extras with
  | Except.ok table => ({ applyScalars active s with extras := table }, [])
  | Except.error e => (applyScalars active s, [e])

/-- The serialization library's value representation, as far as `Settings`
serializes into it.

Modelled from the spec: a generic serialized form with strings, numbers,
null and string-keyed objects. -/
inductive JValue where
  | jnull
  | jstr (s : String)
  | jnum (n : Nat)
  | jobj (fields : List (String × JValue))
deriving Repr

/-- Serializing an optional string field: `null` when absent. -/
def jOfOptStr (o : Option String) : JValue :=
  match o with
  | some s => JValue.jstr s
  | none => JValue.jnull

/-- Serializing an optional integer field: `null` when absent. -/
def jOfOptNum (o : Option Nat) : JValue :=
  match o with
  | some n => JValue.jnum n
  | none => JValue.jnull

/-- The derived serializer for `Settings`: every field in declaration order,
the extras map as an object of strings.

Modelled from the spec: the serialization of the settings record derived
field for field. -/
def serializeSettings (s : Settings) : JValue :=
  JValue.jobj
    [("static_dir", JValue.jstr s.static_dir),
     ("static_route", JValue.jstr s.static_route),
     ("address", jOfOptStr s.address),
     ("port", jOfOptNum s.port),
     ("log", jOfOptStr s.log),
     ("workers", jOfOptNum s.workers),
     ("secret_key", jOfOptStr s.secret_key),
     ("extras", JValue.jobj (s.extras.map fun p => (p.1, JValue.jstr p.2)))]

/-- Deserializing a required string field. -/
def jStr (o : Option JValue) : Except String String :=
  match o with
  | some (JValue.jstr s) => Except.ok s
  | _ => Except.error "expected string"

/-- Deserializing an optional string field: missing or null is `none`. -/
def jOptStr (o : Option JValue) : Except String (Option String) :=
  match o with
  | none => Except.ok none
  | some JValue.jnull => Except.ok none
  | some (JValue.jstr s) => Except.ok (some s)
  | some _ => Except.error "expected string or null"

/-- Deserializing an optional `u16` field: missing or null is `none`, a
number is range-checked. -/
def jOptU16 (o : Option JValue) : Except String (Option Nat) :=
  match o with
  | none => Except.ok none
  | some JValue.jnull => Except.ok none
  | some (JValue.jnum n) =>
    if n < 65536 then Except.ok (some n)
    else Except.error "number out of range for u16"
  | some _ => Except.error "expected number or null"

/-- Deserializing the extras object: every value must be a string. -/
def jExtrasList : List (String × JValue) → Except String (List (String × String))
  | [] => Except.ok []
  | (k, JValue.jstr v) :: rest =>
    match jExtrasList rest with
    | Except.ok r => Except.ok ((k, v) :: r)
    | Except.error e => Except.error e
  | _ :: _ => Except.error "expected string value in extras"

/-- The derived deserializer for `Settings`: fields looked up by name in the
serialized object.

Modelled from the spec: the deserialization of the settings record derived
field for field. -/
def deserializeSettings (j : JValue) : Except String Settings :=
  match j with
  | JValue.jobj f => do
    let sd ← jStr (List.lookup "static_dir" f)
    let sr ← jStr (List.lookup "static_route" f)
    let addr ← jOptStr (List.lookup "address" f)
    let port ← jOptU16 (List.lookup "port" f)
    let lg ← jOptStr (List.lookup "log" f)
    let workers ← jOptU16 (List.lookup "workers" f)
    let sk ← jOptStr (List.lookup "secret_key" f)
    let extras ← match List.lookup "extras" f with
      | some (JValue.jobj l) => jExtrasList l
      | _ => Except.error "expected extras object"
    pure { static_dir := sd, static_route := sr, address := addr,
           port := port, log := lg, workers := workers,
           secret_key := sk, extras := extras }
  | _ => Except.error "expected object"

/-- Well-formedness of a `Settings` value as the Rust types enforce it: the
`u16` fields fit in sixteen bits. -/
def Settings.wf (s : Settings) : Prop :=
  s.port.getD 0 < 65536 ∧ s.workers.getD 0 < 65536

/-! ### General lemmas about the merge model -/

theorem bindE_ok {α β : Type} (a : α) (f : α → Except String β) :
    (Except.ok a >>= f : Except String β) = f a := rfl

theorem bindE_error {α β : Type} (e : String) (f : α → Except String β) :
    ((Except.error e : Except String α) >>= f : Except String β) = Except.error e := rfl

theorem pureE {β : Type} (a : β) : (pure a : Except String β) = Except.ok a := rfl

theorem orElseO_some (v : String) (b : Option String) :
    orElseO (some v) b = some v := rfl

theorem orElseO_none (b : Option String) : orElseO none b = b := rfl

/-- Resolution over concatenated assignment sequences: the later sequence
wins when it binds the key. -/
theorem confGet_append (xs ys : Conf) (k : String) :
    confGet (xs ++ ys) k = orElseO (confGet ys k) (confGet xs k) := by
  induction xs with
  | nil => cases h : confGet ys k <;> simp [confGet, orElseO, h]
  | cons p rest ih =>
    simp only [List.cons_append, confGet, List.append_eq]
    rw [ih]
    cases h : confGet ys k <;> cases h2 : confGet rest k <;>
      simp [orElseO, h, h2]

theorem mergedConf_ok {env : EnvList} {files : FileSys} {base efl : Conf}
    (hb : fileLayer files "config" = Except.ok base)
    (he : envFileLayer env files = Except.ok efl) :
    mergedConf env files =
      Except.ok (defaultsLayer ++ portEnvLayer env ++ base ++ efl ++
        envPrefixed env) := by
  simp [mergedConf, hb, he, bindE_ok, pureE]

theorem confGet_isSome_right (a : Option String) (v : String) :
    ∃ w, orElseO a (some v) = some w := by
  cases a <;> simp [orElseO]

theorem getOptU16_some (c : Conf) (k v : String) (o : Option Nat)
    (hv : confGet c k = some v) (h : getOptU16 c k = Except.ok o) :
    o = parseU16 v := by
  simp only [getOptU16, hv] at h
  cases hp : parseU16 v <;> rw [hp] at h <;> simp_all

/-- Inversion of the typed conversion: the shape of a successfully converted
record in terms of the merged configuration it was read from. -/
theorem tryInto_inv (c : Conf) (ex : List (String × String)) (s : Settings)
    (h : tryIntoSettings c ex = Except.ok s) :
    s.extras = ex ∧ s.address = confGet c "address" ∧
    s.log = confGet c "log" ∧ s.secret_key = confGet c "secret_key" ∧
    getOptU16 c "port" = Except.ok s.port ∧
    getOptU16 c "workers" = Except.ok s.workers := by
  unfold tryIntoSettings at h
  cases h1 : getRequired c "static_dir" with
  | error e => rw [h1] at h; exact absurd h (by simp [bindE_error])
  | ok sd =>
  rw [h1] at h
  cases h2 : getRequired c "static_route" with
  | error e => rw [h2] at h; exact absurd h (by simp [bindE_ok, bindE_error])
  | ok sr =>
  rw [h2] at h
  cases h3 : getOptU16 c "port" with
  | error e =>
    rw [h3] at h; exact absurd h (by simp [bindE_ok, bindE_error])
  | ok po =>
  rw [h3] at h
  cases h4 : getOptU16 c "workers" with
  | error e =>
    rw [h4] at h; exact absurd h (by simp [bindE_ok, bindE_error])
  | ok wo =>
  rw [h4] at h
  simp only [bindE_ok, pureE, Except.ok.injEq] at h
  subst h
  simp_all

/-- Inversion of `Settings.new`: a successful load factors through a
successful merge and a successful typed conversion. -/
theorem new_inv (env : EnvList) (files : FileSys) (s : Settings)
    (hs : Settings.new env files = Except.ok s) :
    ∃ conf, mergedConf env files = Except.ok conf ∧
      tryIntoSettings conf (extrasMap env) = Except.ok s := by
  unfold Settings.new at hs
  cases hm : mergedConf env files with
  | error e => rw [hm] at hs; exact absurd hs (by simp [bindE_error])
  | ok conf =>
    rw [hm] at hs
    rw [bindE_ok] at hs
    exact ⟨conf, rfl, hs⟩

/-! ### Claim C1: source precedence in `Settings::new` -/

/-- C1: For every settings key set by more than one source, the value
produced by `Settings::new` comes from the latest source in the order
defaults, then the direct `PORT` environment-variable mapping, then the base
`config` file, then the `config-<env>` file, then `APP_`-prefixed
environment variables; in particular, a `port` value in the base config file
overrides a value read from the `PORT` environment variable. -/
theorem new_source_precedence (env : EnvList) (files : FileSys)
    (base efl conf : Conf)
    (hb : fileLayer files "config" = Except.ok base)
    (he : envFileLayer env files = Except.ok efl)
    (hc : mergedConf env files = Except.ok conf) :
    (∀ k, confGet conf k =
      orElseO (confGet (envPrefixed env) k)
        (orElseO (confGet efl k)
          (orElseO (confGet base k)
            (orElseO (confGet (portEnvLayer env) k)
              (confGet defaultsLayer k))))) ∧
    (∀ v w, getVar env "PORT" = some w → confGet base "port" = some v →
      confGet (envPrefixed env) "port" = none → confGet efl "port" = none →
      confGet conf "port" = some v ∧
      ∀ s, Settings.new env files = Except.ok s → s.port = parseU16 v) := by
  rw [mergedConf_ok hb he] at hc
  have hconf := Except.ok.inj hc
  subst hconf
  have hchain : ∀ k,
      confGet (defaultsLayer ++ portEnvLayer env ++ base ++ efl ++
        envPrefixed env) k =
      orElseO (confGet (envPrefixed env) k)
        (orElseO (confGet efl k)
          (orElseO (confGet base k)
            (orElseO (confGet (portEnvLayer env) k)
              (confGet defaultsLayer k)))) := by
    intro k
    rw [confGet_append, confGet_append, confGet_append, confGet_append]
  refine ⟨hchain, ?_⟩
  intro v w hw hbase hep hefl
  have hport : confGet (defaultsLayer ++ portEnvLayer env ++ base ++ efl ++
      envPrefixed env) "port" = some v := by
    rw [hchain, hep, hefl, hbase, orElseO_none, orElseO_none, orElseO_some]
  refine ⟨hport, ?_⟩
  intro s hs
  obtain ⟨conf2, hm2, ht2⟩ := new_inv env files s hs
  rw [mergedConf_ok hb he] at hm2
  have hcc := Except.ok.inj hm2
  subst hcc
  have hinv := tryInto_inv _ _ s ht2
  have hpt := hinv.2.2.2.2.1
  exact getOptU16_some _ "port" v s.port hport hpt

/-- Witness for C1: with `PORT=1000` in the environment and `port = "2000"`
in the base `config` file, the merged configuration's `port` is `"2000"`. -/
theorem new_source_precedence_witness :
    confGet (defaultsLayer ++ portEnvLayer [("PORT", "1000")] ++
      [("port", "2000")] ++ [] ++ envPrefixed [("PORT", "1000")]) "port" =
      some "2000" :=
  ((new_source_precedence [("PORT", "1000")]
      [("config", Except.ok [("port", "2000")])] [("port", "2000")] []
      (defaultsLayer ++ portEnvLayer [("PORT", "1000")] ++
        [("port", "2000")] ++ [] ++ envPrefixed [("PORT", "1000")])
      (by decide) (by decide) (by decide)).2 "2000" "1000"
      (by decide) (by decide) (by decide) (by decide)).1

/-! ### Claims C2 and C3: reserved keys and the extras map -/

/-- No key of `FILTER_EXTRA_KEYS` survives the filtering of the extras
map. -/
theorem extrasMap_no_reserved (env : EnvList) (k : String)
    (hk : k ∈ FILTER_EXTRA_KEYS) : ¬ k ∈ (extrasMap env).map Prod.fst := by
  intro hmem
  simp only [extrasMap, List.mem_map, List.mem_filter, decide_not,
    Bool.not_eq_eq_eq_not, Bool.not_true, decide_eq_false_iff_not] at hmem
  obtain ⟨p, ⟨_, hfil⟩, hpk⟩ := hmem
  rw [hpk] at hfil
  exact hfil hk

/-- C2 counterexample: the claim lists `static_dir` among the keys that can
never appear in `extras`, but the source filters only the five
`FILTER_EXTRA_KEYS`; the environment `APP_STATIC_DIR=foo` produces a
`Settings` whose extras map has the key `static_dir`. -/
theorem extras_reserved_keys_counterexample :
    "static_dir" ∈ extrasKeys (Settings.new [("APP_STATIC_DIR", "foo")] []) := by
  decide

/-- C2 (amended): for every environment and file configuration, the `extras`
map of the `Settings` value returned by `Settings::new` contains no key equal
to any of the five filtered field names `address`, `port`, `log`, `workers`
and `secret_key` (keys equal to `static_dir` or `static_route` are NOT
filtered and can appear). -/
theorem extras_no_filtered_keys (env : EnvList) (files : FileSys)
    (s : Settings) (k : String)
    (hs : Settings.new env files = Except.ok s)
    (hk : k ∈ FILTER_EXTRA_KEYS) :
    ¬ k ∈ s.extras.map Prod.fst := by
  obtain ⟨conf, _, ht⟩ := new_inv env files s hs
  rw [(tryInto_inv conf (extrasMap env) s ht).1]
  exact extrasMap_no_reserved env k hk

/-- The `Settings` value loaded from the environment `APP_PORT=9100` with no
files present. -/
def sampleLoaded : Settings :=
  { static_dir := "/workspace/web/public", static_route := "/static",
    address := none, port := some 9100, log := none, workers := none,
    secret_key := none, extras := [] }

/-- Witness for the amended C2: loading with `APP_PORT=9100` yields an
extras map without the key `port`. -/
theorem extras_no_filtered_keys_witness :
    ¬ "port" ∈ sampleLoaded.extras.map Prod.fst :=
  extras_no_filtered_keys [("APP_PORT", "9100")] [] sampleLoaded "port"
    (by decide) (by decide)

/-- C3: an `APP_`-prefixed environment variable whose suffix, compared
case-insensitively, is `ADDRESS`, `PORT`, `LOG`, `WORKERS` or `SECRET_KEY`
(that is, whose stripped lower-cased key is one of the five filtered names)
is absent from the `extras` map of the returned `Settings`, even though it
is present in the map first collected from the prefixed environment. -/
theorem app_env_reserved_suffix_filtered (env : EnvList) (files : FileSys)
    (p : String × String) (name : String) (s : Settings)
    (hp : p ∈ env) (hstrip : stripApp p.1 = some name)
    (hname : name ∈ FILTER_EXTRA_KEYS)
    (hs : Settings.new env files = Except.ok s) :
    ¬ name ∈ s.extras.map Prod.fst ∧
    (p.2 ≠ "" → name ∈ (envPrefixed env).map Prod.fst) := by
  constructor
  · obtain ⟨conf, _, ht⟩ := new_inv env files s hs
    rw [(tryInto_inv conf (extrasMap env) s ht).1]
    exact extrasMap_no_reserved env name hname
  · intro hne
    have hm : (name, p.2) ∈ envPrefixed env := by
      simp only [envPrefixed, List.mem_filterMap]
      exact ⟨p, hp, by simp [hstrip, hne]⟩
    exact List.mem_map.mpr ⟨(name, p.2), hm, rfl⟩

/-- The `Settings` value loaded from the environment `APP_SECRET_Key=abc`
with no files present. -/
def sampleLoadedSecret : Settings :=
  { static_dir := "/workspace/web/public", static_route := "/static",
    address := none, port := none, log := none, workers := none,
    secret_key := some "abc", extras := [] }

/-- Witness for C3: `APP_SECRET_Key=abc` (mixed case) maps to the key
`secret_key`, which is in the raw environment-derived map but not in the
final extras map. -/
theorem app_env_reserved_suffix_filtered_witness :
    ¬ "secret_key" ∈ sampleLoadedSecret.extras.map Prod.fst ∧
    ("abc" ≠ "" →
      "secret_key" ∈ (envPrefixed [("APP_SECRET_Key", "abc")]).map Prod.fst) :=
  app_env_reserved_suffix_filtered [("APP_SECRET_Key", "abc")] []
    ("APP_SECRET_Key", "abc") "secret_key" sampleLoadedSecret
    (by decide) (by decide) (by decide) (by decide)

/-! ### Claim C4: selection of the environment-specific file -/

/-- The three file names an `APP_ENV` value can select. -/
def envFileCandidates : List String :=
  ["config-development", "config-production", "config-staging"]

/-- The file system with every environment-specific candidate file
removed. -/
def dropEnvFiles (files : FileSys) : FileSys :=
  files.filter fun p => ¬ p.1 ∈ envFileCandidates

theorem envFileName_none (a : String)
    (ha : ¬ a ∈ (["development", "production", "staging"] : List String)) :
    envFileName a = none := by
  simp only [List.mem_cons, List.not_mem_nil, or_false, not_or] at ha
  obtain ⟨h1, h2, h3⟩ := ha
  simp [envFileName, h1, h2, h3]

theorem lookup_dropEnvFiles (files : FileSys) (n : String)
    (hn : ¬ n ∈ envFileCandidates) :
    List.lookup n (dropEnvFiles files) = List.lookup n files := by
  unfold dropEnvFiles
  induction files with
  | nil => rfl
  | cons p rest ih =>
    rw [List.filter_cons]
    simp only [decide_not] at ih
    by_cases hp : p.1 ∈ envFileCandidates
    · have hne : (n == p.1) = false := by
        simp only [beq_eq_false_iff_ne, ne_eq]
        intro h
        exact hn (h ▸ hp)
      simp [hp, List.lookup, hne, ih]
    · cases hb : n == p.1 <;> simp [hp, List.lookup, hb, ih]

/-- C4: a file named `config-<env>` is merged exactly when `APP_ENV` equals
`development`, `production` or `staging`; for every other value, including
unset (`appEnvOf` gives `""` then), `Settings::new` behaves as if no
environment-specific candidate file existed at all — so no such file is
merged and its presence or even malformedness causes no error. -/
theorem env_file_selection (env : EnvList) (files : FileSys) :
    (∀ a, (envFileName a).isSome ↔
      (a = "development" ∨ a = "production" ∨ a = "staging")) ∧
    (¬ appEnvOf env ∈ (["development", "production", "staging"] : List String) →
      Settings.new env (dropEnvFiles files) = Settings.new env files) := by
  constructor
  · intro a
    unfold envFileName
    split_ifs with h1 h2 h3 <;> simp_all
  · intro ha
    have hf : envFileName (appEnvOf env) = none := envFileName_none _ ha
    have h1 : fileLayer (dropEnvFiles files) "config" =
        fileLayer files "config" := by
      unfold fileLayer
      rw [lookup_dropEnvFiles files "config" (by decide)]
    have h2 : envFileLayer env (dropEnvFiles files) =
        envFileLayer env files := by
      unfold envFileLayer
      rw [hf]
    unfold Settings.new mergedConf
    rw [h1, h2]

/-- Witness for C4: with `APP_ENV=unknown_value`, a malformed
`config-staging` file changes nothing — it is not read, not merged and not an
error. -/
theorem env_file_selection_witness :
    Settings.new [("APP_ENV", "unknown_value")]
        (dropEnvFiles [("config-staging", Except.error "malformed")]) =
      Settings.new [("APP_ENV", "unknown_value")]
        [("config-staging", Except.error "malformed")] :=
  (env_file_selection [("APP_ENV", "unknown_value")]
      [("config-staging", Except.error "malformed")]).2 (by decide)

/-! ### Claim C5: ignore-empty semantics of the prefixed environment -/

theorem confGet_eq_none (l : Conf) (k : String)
    (h : ∀ p ∈ l, p.1 ≠ k) : confGet l k = none := by
  induction l with
  | nil => rfl
  | cons p rest ih =>
    simp only [confGet, ih fun q hq => h q (List.mem_cons_of_mem p hq)]
    simp [h p (List.mem_cons_self p rest)]

/-- Every entry of the collected prefixed environment comes from a non-empty
`APP_`-prefixed variable. -/
theorem envPrefixed_mem (env : EnvList) (q : String × String)
    (hq : q ∈ envPrefixed env) :
    ∃ p ∈ env, stripApp p.1 = some q.1 ∧ p.2 = q.2 ∧ q.2 ≠ "" := by
  simp only [envPrefixed, List.mem_filterMap] at hq
  obtain ⟨p, hp, hf⟩ := hq
  cases hs : stripApp p.1 with
  | none => rw [hs] at hf; simp at hf
  | some key =>
    rw [hs] at hf
    by_cases he : p.2 = ""
    · simp [he] at hf
    · simp only [he, if_false, Option.some.injEq] at hf
      refine ⟨p, hp, ?_, ?_, ?_⟩
      · rw [hs, ← hf]
      · rw [← hf]
      · rw [← hf]; exact he

/-- C5: if the merge steps before the prefixed-environment step give a key a
non-empty value, and an `APP_`-prefixed variable for that key is present but
set to the empty string (with every `APP_` variable for that key empty, so
the ignore-empty collection drops them all), the merged configuration keeps
the earlier value for that key. -/
theorem empty_env_var_no_override (env : EnvList) (files : FileSys)
    (base efl conf : Conf) (kvar name v : String)
    (hb : fileLayer files "config" = Except.ok base)
    (he : envFileLayer env files = Except.ok efl)
    (hc : mergedConf env files = Except.ok conf)
    (hmem : (kvar, "") ∈ env) (hstrip : stripApp kvar = some name)
    (hall : ∀ p ∈ env, stripApp p.1 = some name → p.2 = "")
    (hpre : confGet (defaultsLayer ++ portEnvLayer env ++ base ++ efl) name =
      some v)
    (hne : v ≠ "") :
    confGet conf name = some v := by
  rw [mergedConf_ok hb he] at hc
  have hconf := Except.ok.inj hc
  subst hconf
  have hep : confGet (envPrefixed env) name = none := by
    apply confGet_eq_none
    intro q hq hkq
    obtain ⟨p, hp, hps, hpv, hqe⟩ := envPrefixed_mem env q hq
    rw [hkq] at hps
    exact hqe (hpv ▸ hall p hp hps)
  rw [confGet_append, hep, orElseO_none, hpre]

/-- Witness for C5: the base file sets `greeting=hello`; the environment has
`APP_GREETING=` (empty); the merged value for `greeting` is still
`hello`. -/
theorem empty_env_var_no_override_witness :
    confGet (defaultsLayer ++ portEnvLayer [("APP_GREETING", "")] ++
      [("greeting", "hello")] ++ [] ++
      envPrefixed [("APP_GREETING", "")]) "greeting" = some "hello" :=
  empty_env_var_no_override [("APP_GREETING", "")]
    [("config", Except.ok [("greeting", "hello")])]
    [("greeting", "hello")] []
    (defaultsLayer ++ portEnvLayer [("APP_GREETING", "")] ++
      [("greeting", "hello")] ++ [] ++ envPrefixed [("APP_GREETING", "")])
    "APP_GREETING" "greeting" "hello"
    (by decide) (by decide) (by decide) (by decide) (by decide)
    (by decide) (by decide) (by decide)

/-! ### The projector: frame lemmas for the scalar fields -/

theorem applyScalars_extras (active : Except String REnv) (s : Settings) :
    (applyScalars active s).extras = [] := by
  obtain ⟨sd, sr, a, p, l, w, k, ex⟩ := s
  cases a <;> cases p <;> cases l <;> cases w <;> cases k <;> rfl

theorem applyScalars_environment (active : Except String REnv) (s : Settings) :
    (applyScalars active s).environment = chosenEnv active := by
  obtain ⟨sd, sr, a, p, l, w, k, ex⟩ := s
  cases a <;> cases p <;> cases l <;> cases w <;> cases k <;> rfl

theorem applyScalars_address (active : Except String REnv) (s : Settings) :
    (applyScalars active s).address =
      match s.address with
      | some a => a
      | none => (RConfig.new (chosenEnv active)).address := by
  obtain ⟨sd, sr, a, p, l, w, k, ex⟩ := s
  cases a <;> cases p <;> cases l <;> cases w <;> cases k <;> rfl

theorem applyScalars_port (active : Except String REnv) (s : Settings) :
    (applyScalars active s).port =
      match s.port with
      | some p => p
      | none => (RConfig.new (chosenEnv active)).port := by
  obtain ⟨sd, sr, a, p, l, w, k, ex⟩ := s
  cases a <;> cases p <;> cases l <;> cases w <;> cases k <;> rfl

theorem applyScalars_log (active : Except String REnv) (s : Settings) :
    (applyScalars active s).log_level =
      match s.log with
      | some l =>
        match LoggingLevel.fromStr l with
        | some lv => lv
        | none => LoggingLevel.normal
      | none => (RConfig.new (chosenEnv active)).log_level := by
  obtain ⟨sd, sr, a, p, l, w, k, ex⟩ := s
  cases a <;> cases p <;> cases l <;> cases w <;> cases k <;> rfl

theorem applyScalars_workers (active : Except String REnv) (s : Settings) :
    (applyScalars active s).workers =
      match s.workers with
      | some w => w
      | none => (RConfig.new (chosenEnv active)).workers := by
  obtain ⟨sd, sr, a, p, l, w, k, ex⟩ := s
  cases a <;> cases p <;> cases l <;> cases w <;> cases k <;> rfl

theorem applyScalars_secret (active : Except String REnv) (s : Settings) :
    (applyScalars active s).secret_key =
      match s.secret_key with
      | some k => some k
      | none => (RConfig.new (chosenEnv active)).secret_key := by
  obtain ⟨sd, sr, a, p, l, w, k, ex⟩ := s
  cases a <;> cases p <;> cases l <;> cases w <;> cases k <;> rfl

/-- The projected configuration differs from the scalar part only in its
extras table. -/
theorem intoConfig_scalars (active : Except String REnv)
    (tf : String → Except String RValue) (s : Settings) :
    ∃ ex, (Settings.intoConfig active tf s).1 =
      { applyScalars active s with extras := ex } := by
  unfold Settings.intoConfig
  cases h : collectExtras tf s.extras with
  | ok table => exact ⟨table, rfl⟩
  | error e => exact ⟨(applyScalars active s).extras, rfl⟩

/-! ### Claims C6, C7, C8, C10: the projection into the framework Config -/

/-- A failing entry anywhere makes the whole extras collection fail. -/
theorem collectExtras_error (tf : String → Except String RValue)
    (l : List (String × String)) (p : String × String) (e : String)
    (hp : p ∈ l) (he : tf p.2 = Except.error e) :
    ∃ e2, collectExtras tf l = Except.error e2 := by
  induction l with
  | nil => cases hp
  | cons q rest ih =>
    cases hq : tf q.2 with
    | error e3 => exact ⟨e3, by simp [collectExtras, hq]⟩
    | ok w =>
      rcases List.mem_cons.mp hp with hpq | hmem
      · rw [← hpq, he] at hq
        cases hq
      · obtain ⟨e2, h2⟩ := ih hmem
        exact ⟨e2, by simp [collectExtras, hq, h2]⟩

/-- C6: if conversion of any single extras entry fails, no extras entry at
all is applied to the configuration (its extras table stays the framework
default, the empty table), a diagnostic is written to the error stream, and
the projection still returns a configuration — its type `RConfig × List
String` carries no error. -/
theorem extras_conversion_failure_atomic (active : Except String REnv)
    (tf : String → Except String RValue) (s : Settings)
    (p : String × String) (e : String)
    (hp : p ∈ s.extras) (he : tf p.2 = Except.error e) :
    (Settings.intoConfig active tf s).1.extras =
      (RConfig.new (chosenEnv active)).extras ∧
    (Settings.intoConfig active tf s).2 ≠ [] := by
  obtain ⟨e2, h2⟩ := collectExtras_error tf s.extras p e hp he
  unfold Settings.intoConfig
  rw [h2]
  exact ⟨applyScalars_extras active s, by simp⟩

/-- The conversion used by the concrete projector examples: it fails on the
value `"bad"` and succeeds on everything else. -/
def tfSample : String → Except String RValue :=
  fun v => if v = "bad" then Except.error "boom" else Except.ok (RValue.strV v)

/-- A settings value with an extras entry that fails to convert. -/
def sampleExtrasSettings : Settings :=
  { static_dir := "d", static_route := "/s", address := none, port := none,
    log := none, workers := none, secret_key := none,
    extras := [("a", "ok"), ("b", "bad")] }

/-- Witness for C6: one bad extras entry abandons the whole extras
application and leaves a diagnostic. -/
theorem extras_conversion_failure_atomic_witness :
    (Settings.intoConfig (Except.ok REnv.development) tfSample
      sampleExtrasSettings).1.extras =
      (RConfig.new (chosenEnv (Except.ok REnv.development))).extras ∧
    (Settings.intoConfig (Except.ok REnv.development) tfSample
      sampleExtrasSettings).2 ≠ [] :=
  extras_conversion_failure_atomic (Except.ok REnv.development) tfSample
    sampleExtrasSettings ("b", "bad") "boom" (by decide) (by decide)

/-- C7: a `log` value that parses as no logging-level enumerator makes the
projection set the level to `normal`; the projection does not fail. -/
theorem bad_log_level_falls_back_normal (active : Except String REnv)
    (tf : String → Except String RValue) (s : Settings) (l : String)
    (hl : s.log = some l) (hp : LoggingLevel.fromStr l = none) :
    (Settings.intoConfig active tf s).1.log_level = LoggingLevel.normal := by
  obtain ⟨ex, hx⟩ := intoConfig_scalars active tf s
  rw [hx]
  show (applyScalars active s).log_level = LoggingLevel.normal
  rw [applyScalars_log, hl]
  simp [hp]

/-- A settings value whose `log` is the unparseable `"bogus"`. -/
def sampleLogSettings : Settings :=
  { static_dir := "d", static_route := "/s", address := none, port := none,
    log := some "bogus", workers := none, secret_key := none, extras := [] }

/-- Witness for C7: `log = Some("bogus")` projects to the `normal` level. -/
theorem bad_log_level_falls_back_normal_witness :
    (Settings.intoConfig (Except.ok REnv.development) tfSample
      sampleLogSettings).1.log_level = LoggingLevel.normal :=
  bad_log_level_falls_back_normal (Except.ok REnv.development) tfSample
    sampleLogSettings "bogus" rfl (by decide)

/-- C8: for each of the optional fields `address`, `port`, `log`, `workers`
and `secret_key`: when the field is `none` the corresponding field of the
projected configuration equals the framework's own default for the chosen
environment, unchanged; when it is `some v` the field is overwritten with
`v` (for `log`, with the level `v` denotes). -/
theorem optional_fields_frame (active : Except String REnv)
    (tf : String → Except String RValue) (s : Settings) :
    (s.address = none → (Settings.intoConfig active tf s).1.address =
      (RConfig.new (chosenEnv active)).address) ∧
    (∀ v, s.address = some v →
      (Settings.intoConfig active tf s).1.address = v) ∧
    (s.port = none → (Settings.intoConfig active tf s).1.port =
      (RConfig.new (chosenEnv active)).port) ∧
    (∀ v, s.port = some v → (Settings.intoConfig active tf s).1.port = v) ∧
    (s.log = none → (Settings.intoConfig active tf s).1.log_level =
      (RConfig.new (chosenEnv active)).log_level) ∧
    (∀ v lv, s.log = some v → LoggingLevel.fromStr v = some lv →
      (Settings.intoConfig active tf s).1.log_level = lv) ∧
    (s.workers = none → (Settings.intoConfig active tf s).1.workers =
      (RConfig.new (chosenEnv active)).workers) ∧
    (∀ v, s.workers = some v →
      (Settings.intoConfig active tf s).1.workers = v) ∧
    (s.secret_key = none → (Settings.intoConfig active tf s).1.secret_key =
      (RConfig.new (chosenEnv active)).secret_key) ∧
    (∀ v, s.secret_key = some v →
      (Settings.intoConfig active tf s).1.secret_key = some v) := by
  obtain ⟨ex, hx⟩ := intoConfig_scalars active tf s
  rw [hx]
  refine ⟨?_, ?_, ?_, ?_, ?_, ?_, ?_, ?_, ?_, ?_⟩
  · intro h
    show (applyScalars active s).address = _
    rw [applyScalars_address, h]
  · intro v h
    show (applyScalars active s).address = v
    rw [applyScalars_address, h]
  · intro h
    show (applyScalars active s).port = _
    rw [applyScalars_port, h]
  · intro v h
    show (applyScalars active s).port = v
    rw [applyScalars_port, h]
  · intro h
    show (applyScalars active s).log_level = _
    rw [applyScalars_log, h]
  · intro v lv h hl
    show (applyScalars active s).log_level = lv
    rw [applyScalars_log, h]
    simp [hl]
  · intro h
    show (applyScalars active s).workers = _
    rw [applyScalars_workers, h]
  · intro v h
    show (applyScalars active s).workers = v
    rw [applyScalars_workers, h]
  · intro h
    show (applyScalars active s).secret_key = _
    rw [applyScalars_secret, h]
  · intro v h
    show (applyScalars active s).secret_key = some v
    rw [applyScalars_secret, h]

/-- A settings value mixing present and absent optional fields. -/
def sampleMixedSettings : Settings :=
  { static_dir := "d", static_route := "/s", address := some "h",
    port := none, log := some "debug", workers := some 3,
    secret_key := none, extras := [] }

/-- Witness for C8: with `port = None` the projected port is the framework
default; with `address = Some("h")` the address is overwritten. -/
theorem optional_fields_frame_witness :
    (Settings.intoConfig (Except.ok REnv.development) tfSample
      sampleMixedSettings).1.port =
      (RConfig.new (chosenEnv (Except.ok REnv.development))).port ∧
    (Settings.intoConfig (Except.ok REnv.development) tfSample
      sampleMixedSettings).1.address = "h" := by
  have h := optional_fields_frame (Except.ok REnv.development) tfSample
    sampleMixedSettings
  exact ⟨h.2.2.1 rfl, h.2.1 "h" rfl⟩

/-- C10: when the framework's active environment cannot be determined (the
active-environment query returns an error), the projection silently
constructs the configuration for the production environment and does not
fail. -/
theorem inactive_env_defaults_production
    (tf : String → Except String RValue) (s : Settings) (msg : String) :
    (Settings.intoConfig (Except.error msg) tf s).1.environment =
      REnv.production := by
  obtain ⟨ex, hx⟩ := intoConfig_scalars (Except.error msg) tf s
  rw [hx]
  show (applyScalars (Except.error msg) s).environment = REnv.production
  rw [applyScalars_environment]
  rfl

/-! ### Claim C9: serialization round-trip -/

theorem jOptStr_round (o : Option String) :
    jOptStr (some (jOfOptStr o)) = Except.ok o := by
  cases o <;> rfl

theorem jOptU16_round (o : Option Nat) (h : o.getD 0 < 65536) :
    jOptU16 (some (jOfOptNum o)) = Except.ok o := by
  cases o with
  | none => rfl
  | some n => simp only [Option.getD_some] at h; simp [jOfOptNum, jOptU16, h]

theorem jExtrasList_round (l : List (String × String)) :
    jExtrasList (l.map fun p => (p.1, JValue.jstr p.2)) = Except.ok l := by
  induction l with
  | nil => rfl
  | cons p rest ih =>
    obtain ⟨k, v⟩ := p
    simp [jExtrasList, ih]

/-- C9: serializing a `Settings` value and deserializing the result yields
the original, field for field, extras map included.  The well-formedness
hypothesis states what the Rust `u16` types enforce: the numeric fields fit
in sixteen bits. -/
theorem serialize_roundtrip (s : Settings) (h : Settings.wf s) :
    deserializeSettings (serializeSettings s) = Except.ok s := by
  obtain ⟨hp, hw⟩ := h
  unfold serializeSettings deserializeSettings
  simp [List.lookup, jStr, jOptStr_round, jOptU16_round s.port hp,
    jOptU16_round s.workers hw, jExtrasList_round, bindE_ok, pureE]

/-- A concrete settings value exercising every field shape. -/
def sampleRound : Settings :=
  { static_dir := "/srv/static", static_route := "/static",
    address := some "0.0.0.0", port := some 8080, log := none,
    workers := none, secret_key := some "s3cret",
    extras := [("template_dir", "/srv/templates")] }

/-- Witness for C9: the round-trip at a concrete settings value. -/
theorem serialize_roundtrip_witness :
    deserializeSettings (serializeSettings sampleRound) =
      Except.ok sampleRound :=
  serialize_roundtrip sampleRound (by constructor <;> decide)

end SettingsSpec
